import Mathlib

/-!
Shallow embedding of the DuxNet core (`src/core` of rust-DuxNet): the DHT-like
content registry, the reputation ledger, the escrow coordinator and the task
engine, together with theorems settling the specification's claims about them.

Rust `HashMap<String, V>` is modelled as an association list with first-match
lookup (`hget`), replace-or-append insertion (`hinsert`, the semantics of
`HashMap::insert` up to iteration order, which the spec leaves unspecified)
and removal (`hremove`); `len` is `List.length`, which equals the number of
distinct keys on maps built from the empty map by these operations.  `u64`
values are `Nat`, `f64` scores are `ℚ` (exact arithmetic in place of floating
point), byte vectors are `List Nat`, and the ambient clock
`get_current_timestamp()` is passed explicitly as a `now : Nat` argument.
-/

namespace DuxNet

/-- Association-list model of `std::collections::HashMap<String, β>`. -/
abbrev HMap (β : Type) := List (String × β)

/-- `HashMap::get`: first binding whose key equals `k`. -/
def hget {β : Type} : HMap β → String → Option β
  | [], _ => none
  | (k', v) :: rest, k => if k' = k then some v else hget rest k

/-- `HashMap::contains_key`. -/
def hcontains {β : Type} (m : HMap β) (k : String) : Bool :=
  (hget m k).isSome

/-- `HashMap::insert`: replace the binding for `k` if present, append otherwise. -/
def hinsert {β : Type} : HMap β → String → β → HMap β
  | [], k, v => [(k, v)]
  | (k', v') :: rest, k, v =>
      if k' = k then (k, v) :: rest else (k', v') :: hinsert rest k v

/-- `HashMap::remove` (the removed value is recovered via `hget` when needed). -/
def hremove {β : Type} : HMap β → String → HMap β
  | [], _ => []
  | (k', v') :: rest, k =>
      if k' = k then hremove rest k else (k', v') :: hremove rest k

/-! ## Data structures (`src/core/data_structures.rs`)

Newtype identifier wrappers (`NodeId`, `ServiceId`, `TaskId`) are flattened to
`String`; `f64` scores are `ℚ`; byte vectors (`Vec<u8>`) are `List Nat`. -/

/-- `ServiceMetadata` (data_structures.rs:26). -/
structure ServiceMetadata where
  id : String
  provider_did : String
  name : String
  description : String
  endpoint : String
  price : Nat
  reputation_score : ℚ
  last_updated : Nat
deriving DecidableEq

/-- `ReputationAttestation` (data_structures.rs:39). -/
structure ReputationAttestation where
  attester_did : String
  target_did : String
  score : ℚ
  interaction_type : String
  timestamp : Nat
  signature : List Nat
deriving DecidableEq

/-- `EscrowState` (data_structures.rs:63). -/
inductive EscrowState where
  | Created
  | Funded
  | InProgress
  | Completed
  | Disputed
  | Refunded
deriving DecidableEq

/-- `EscrowContract` (data_structures.rs:50). -/
structure EscrowContract where
  id : String
  buyer_did : String
  seller_did : String
  arbiters : List String
  amount : Nat
  state : EscrowState
  multisig_address : String
  signatures : HMap (List Nat)
  created_at : Nat
deriving DecidableEq

/-- `TaskRequirements` (data_structures.rs:84). -/
structure TaskRequirements where
  cpu_cores : Nat
  memory_mb : Nat
  timeout_seconds : Nat
deriving DecidableEq

/-- `Task` (data_structures.rs:74). -/
structure Task where
  id : String
  escrow_id : String
  service_id : String
  payload : List Nat
  requirements : TaskRequirements
  created_at : Nat
deriving DecidableEq

/-- `TaskResult` (data_structures.rs:91). -/
structure TaskResult where
  task_id : String
  processor_did : String
  result : List Nat
  proof : List Nat
  completed_at : Nat
deriving DecidableEq

/-! ## Content registry (`src/core/dht.rs`)

DHT values are stored serialized (`serde_json::to_vec`) and read back with
`serde_json::from_slice::<T>`, which fails on bytes of the wrong record kind;
this pair is modelled by a tagged sum `DHTValue` whose constructor records the
record kind, with kind-specific decoding as a pattern match. -/

/-- The serialized payload of a registry entry, tagged with its record kind. -/
inductive DHTValue where
  | service : ServiceMetadata → DHTValue
  | attestation : ReputationAttestation → DHTValue
  | escrow : EscrowContract → DHTValue
deriving DecidableEq

/-- `serde_json::from_slice::<ServiceMetadata>` on a stored value. -/
def asService : DHTValue → Option ServiceMetadata
  | .service s => some s
  | _ => none

/-- `serde_json::from_slice::<ReputationAttestation>` on a stored value. -/
def asAttestation : DHTValue → Option ReputationAttestation
  | .attestation a => some a
  | _ => none

/-- `DHTEntry` (dht.rs:9). -/
structure DHTEntry where
  key : String
  value : DHTValue
  timestamp : Nat
  ttl : Nat
deriving DecidableEq

/-- `str::starts_with` on strings, via character lists. -/
def isPrefixCL : List Char → List Char → Bool
  | [], _ => true
  | _ :: _, [] => false
  | a :: as, b :: bs => if a = b then isPrefixCL as bs else false

/-- `str::starts_with pre s`-style check: is `pre` a prefix of `s`? -/
def startsWithStr (s pre : String) : Bool :=
  isPrefixCL pre.data s.data

/-- `str::contains`: does `hay` contain `needle` as a contiguous substring? -/
def isInfixCL (needle : List Char) : List Char → Bool
  | [] => needle.isEmpty
  | b :: bs => isPrefixCL needle (b :: bs) || isInfixCL needle bs

/-- `String::to_lowercase`, as a character list. -/
def toLowerCL (s : String) : List Char :=
  s.data.map Char.toLower

/-- The match test of `DHT::find_services` (dht.rs:82-83): case-insensitive
substring match of the query against the service name or description. -/
def serviceMatches (query : String) (s : ServiceMetadata) : Bool :=
  isInfixCL (toLowerCL query) (toLowerCL s.name) ||
  isInfixCL (toLowerCL query) (toLowerCL s.description)

/-- `DHT` (dht.rs:16): registry entries plus the bounded peer cache.  The
`Arc<RwLock<...>>` containers are flattened to their contents; lock behaviour
is modelled separately by the event traces further below. -/
structure DHT where
  node_id : String
  entries : HMap DHTEntry
  peers : List String
  k_bucket_size : Nat
deriving DecidableEq

namespace DHT

/-- `DHT::new` (dht.rs:24). -/
def new (node_id : String) : DHT :=
  { node_id := node_id, entries := [], peers := [], k_bucket_size := 20 }

/-- `DHT::store` (dht.rs:33); `now` stands for `get_current_timestamp()`. -/
def store (d : DHT) (now : Nat) (key : String) (value : DHTValue) (ttl : Nat) : DHT :=
  let entry : DHTEntry := { key := key, value := value, timestamp := now, ttl := ttl }
  { d with entries := hinsert d.entries key entry }

/-- `DHT::get` (dht.rs:47): the stored value, but only while
`now < timestamp + ttl`. -/
def get (d : DHT) (now : Nat) (key : String) : Option DHTValue :=
  match hget d.entries key with
  | some entry => if now < entry.timestamp + entry.ttl then some entry.value else none
  | none => none

/-- `DHT::remove` (dht.rs:62). -/
def remove (d : DHT) (key : String) : DHT :=
  { d with entries := hremove d.entries key }

/-- `DHT::announce_service` (dht.rs:69): store under `service:<id>` with a
3600-second TTL. -/
def announce_service (d : DHT) (now : Nat) (service : ServiceMetadata) : DHT :=
  d.store now ("service:" ++ service.id) (.service service) 3600

/-- `DHT::find_services` (dht.rs:75): scan all entries whose key starts with
`service:`, decode, and keep the ones matching the query.  Note that the
source reads no clock here — no TTL condition is applied. -/
def find_services (d : DHT) (query : String) : List ServiceMetadata :=
  d.entries.filterMap fun p =>
    if startsWithStr p.1 "service:" then
      match asService p.2.value with
      | some s => if serviceMatches query s then some s else none
      | none => none
    else none

/-- `DHT::store_reputation_attestation` (dht.rs:94): store under
`reputation:<target>:<timestamp>` with an 86400-second TTL. -/
def store_reputation_attestation (d : DHT) (now : Nat) (a : ReputationAttestation) : DHT :=
  d.store now ("reputation:" ++ a.target_did ++ ":" ++ toString a.timestamp)
    (.attestation a) 86400

/-- `DHT::get_reputation_attestations` (dht.rs:100): scan all entries whose
key starts with `reputation:<target>:` and decode them.  As with
`find_services`, the source reads no clock here — no TTL condition. -/
def get_reputation_attestations (d : DHT) (target_did : String) : List ReputationAttestation :=
  d.entries.filterMap fun p =>
    if startsWithStr p.1 ("reputation:" ++ target_did ++ ":") then
      asAttestation p.2.value
    else none

/-- `DHT::add_peer` (dht.rs:131): append if new; if the cache then exceeds
`k_bucket_size`, drop the oldest (index 0) entry. -/
def add_peer (d : DHT) (peer_id : String) : DHT :=
  if peer_id ∈ d.peers then d
  else
    let ps := d.peers ++ [peer_id]
    if d.k_bucket_size < ps.length then { d with peers := ps.drop 1 }
    else { d with peers := ps }

/-- `DHT::remove_peer` (dht.rs:143). -/
def remove_peer (d : DHT) (peer_id : String) : DHT :=
  { d with peers := d.peers.filter fun p => decide (p ≠ peer_id) }

/-- `DHT::cleanup_expired_entries` (dht.rs:155): retain only unexpired
entries (the count of removed entries is the length difference). -/
def cleanup_expired_entries (d : DHT) (now : Nat) : DHT :=
  { d with entries := d.entries.filter fun p =>
      decide (now < p.2.timestamp + p.2.ttl) }

end DHT

/-! ## Reputation ledger (`src/core/reputation.rs`)

The `f64` arithmetic of `recalculate_score` is carried out exactly in `ℚ`
(`0.95` is `19/20`).  `age_days as i32` in the source truncates only for ages
of at least `2^31` days; the embedding uses the untruncated `Nat` exponent. -/

/-- The decay weight `0.95_f64.powi(age_days)` (reputation.rs:54). -/
def decayFactor (age_days : Nat) : ℚ :=
  (19 / 20 : ℚ) ^ age_days

/-- The score loop of `ReputationSystem::recalculate_score`
(reputation.rs:46-65): decayed weighted mean, or `0` when the weight sum is
not positive. -/
def scoreOf (now : Nat) (atts : List ReputationAttestation) : ℚ :=
  let weighted_sum := (atts.map fun a => a.score * decayFactor ((now - a.timestamp) / 86400)).sum
  let weight_sum := (atts.map fun a => decayFactor ((now - a.timestamp) / 86400)).sum
  if 0 < weight_sum then weighted_sum / weight_sum else 0

/-- `ReputationSystem` (reputation.rs:8). -/
structure ReputationSystem where
  attestations : HMap (List ReputationAttestation)
  scores : HMap ℚ
deriving DecidableEq

namespace ReputationSystem

/-- `ReputationSystem::new` (reputation.rs:14). -/
def new : ReputationSystem :=
  { attestations := [], scores := [] }

/-- `ReputationSystem::recalculate_score` (reputation.rs:43): recompute and
store the target's score, but only when the target has an attestation list
(`if let Some(atts)`); `now` stands for `get_current_timestamp()`. -/
def recalculate_score (r : ReputationSystem) (now : Nat) (did : String) : ReputationSystem :=
  match hget r.attestations did with
  | some atts => { r with scores := hinsert r.scores did (scoreOf now atts) }
  | none => r

/-- `ReputationSystem::add_attestation` (reputation.rs:21): append to the
target's list (creating it when absent), then recalculate that target. -/
def add_attestation (r : ReputationSystem) (now : Nat) (a : ReputationAttestation) : ReputationSystem :=
  let old := (hget r.attestations a.target_did).getD []
  let r' := { r with attestations := hinsert r.attestations a.target_did (old ++ [a]) }
  r'.recalculate_score now a.target_did

/-- `ReputationSystem::get_reputation` (reputation.rs:33): stored score, or
`0.0` for unknown identities. -/
def get_reputation (r : ReputationSystem) (did : String) : ℚ :=
  (hget r.scores did).getD 0

/-- `ReputationSystem::get_attestations` (reputation.rs:38). -/
def get_attestations (r : ReputationSystem) (did : String) : List ReputationAttestation :=
  (hget r.attestations did).getD []

/-- `ReputationSystem::remove_attestation` (reputation.rs:74): retain the
attestations that do not match `(attester, timestamp)` exactly, then
recalculate the target. -/
def remove_attestation (r : ReputationSystem) (now : Nat) (target_did attester_did : String)
    (timestamp : Nat) : ReputationSystem :=
  let r' :=
    match hget r.attestations target_did with
    | some atts =>
        let kept := atts.filter fun (a : ReputationAttestation) =>
          decide (¬ (a.attester_did = attester_did ∧ a.timestamp = timestamp))
        { r with attestations := hinsert r.attestations target_did kept }
    | none => r
  r'.recalculate_score now target_did

end ReputationSystem

/-! ## Escrow coordinator (`src/core/escrow.rs`)

The fallible operations return `Result<()>`; the pair returned here carries
the `Except`-style outcome together with the (possibly unchanged) manager
state, since the Rust methods mutate in place behind `&self`. -/

/-- `EscrowManager` (escrow.rs:8). -/
structure EscrowManager where
  contracts : HMap EscrowContract
  threshold : Nat
deriving DecidableEq

namespace EscrowManager

/-- `EscrowManager::new` (escrow.rs:14): threshold 2 by default. -/
def new : EscrowManager :=
  { contracts := [], threshold := 2 }

/-- `EscrowManager::create_escrow` (escrow.rs:21), with the freshly drawn
UUID passed in as `escrow_id`. -/
def create_escrow (m : EscrowManager) (escrow_id : String) (now : Nat)
    (buyer_did seller_did : String) (arbiters : List String) (amount : Nat) : EscrowManager :=
  let contract : EscrowContract :=
    { id := escrow_id
      buyer_did := buyer_did
      seller_did := seller_did
      arbiters := arbiters
      amount := amount
      state := .Created
      multisig_address := "multisig_" ++ escrow_id
      signatures := []
      created_at := now }
  { m with contracts := hinsert m.contracts escrow_id contract }

/-- Body of the found-contract branch of `EscrowManager::add_signature`
(escrow.rs:49-64): overwrite the signer's entry; when the signer count
reaches the threshold, `Created` becomes `Funded` and `InProgress` becomes
`Completed`, with no other transition (`_ => {}`). -/
def signContract (threshold : Nat) (contract : EscrowContract)
    (signer_did : String) (signature : List Nat) : EscrowContract :=
  let c1 := { contract with signatures := hinsert contract.signatures signer_did signature }
  if threshold ≤ c1.signatures.length then
    match c1.state with
    | .Created => { c1 with state := .Funded }
    | .InProgress => { c1 with state := .Completed }
    | _ => c1
  else c1

/-- `EscrowManager::add_signature` (escrow.rs:45). -/
def add_signature (m : EscrowManager) (escrow_id signer_did : String)
    (signature : List Nat) : Except String Unit × EscrowManager :=
  match hget m.contracts escrow_id with
  | some contract =>
      let c2 := signContract m.threshold contract signer_did signature
      (.ok (), { m with contracts := hinsert m.contracts escrow_id c2 })
  | none => (.error ("Escrow contract not found: " ++ escrow_id), m)

/-- `EscrowManager::get_contract` (escrow.rs:73). -/
def get_contract (m : EscrowManager) (escrow_id : String) : Option EscrowContract :=
  hget m.contracts escrow_id

/-- `EscrowManager::update_state` (escrow.rs:78): unconditional state
overwrite for a known id, `Err` for an unknown one. -/
def update_state (m : EscrowManager) (escrow_id : String) (new_state : EscrowState) :
    Except String Unit × EscrowManager :=
  match hget m.contracts escrow_id with
  | some contract =>
      let c1 := { contract with state := new_state }
      (.ok (), { m with contracts := hinsert m.contracts escrow_id c1 })
  | none => (.error ("Escrow contract not found: " ++ escrow_id), m)

end EscrowManager

/-! ## Task scheduler (`src/core/tasks.rs`) -/

/-- `TaskStatus` (tasks.rs:141). -/
inductive TaskStatus where
  | Pending
  | Processing
  | Completed
  | NotFound
deriving DecidableEq

/-- `TaskStats` (tasks.rs:149). -/
structure TaskStats where
  pending_count : Nat
  processing_count : Nat
  completed_count : Nat
  total_tasks : Nat
deriving DecidableEq

/-- `TaskEngine` (tasks.rs:8): the pending, completed and processing maps
(the last binds a task id to its processor identity). -/
structure TaskEngine where
  pending_tasks : HMap Task
  completed_tasks : HMap TaskResult
  processing_tasks : HMap String
deriving DecidableEq

namespace TaskEngine

/-- `TaskEngine::new` (tasks.rs:15). -/
def new : TaskEngine :=
  { pending_tasks := [], completed_tasks := [], processing_tasks := [] }

/-- `TaskEngine::submit_task` (tasks.rs:23): unconditional insert into the
pending map, keyed by the task id. -/
def submit_task (e : TaskEngine) (task : Task) : TaskEngine :=
  { e with pending_tasks := hinsert e.pending_tasks task.id task }

/-- `TaskEngine::accept_task` (tasks.rs:30): remove from pending; when that
succeeds, bind the id to the processor in the processing map and return the
task, otherwise return `none` and change nothing. -/
def accept_task (e : TaskEngine) (task_id : String) (processor_did : String) :
    Option Task × TaskEngine :=
  match hget e.pending_tasks task_id with
  | some task =>
      (some task,
        { e with
          pending_tasks := hremove e.pending_tasks task_id
          processing_tasks := hinsert e.processing_tasks task_id processor_did })
  | none => (none, e)

/-- `TaskEngine::complete_task` (tasks.rs:42): insert the result keyed by its
task id and drop any processing entry for that id, unconditionally. -/
def complete_task (e : TaskEngine) (result : TaskResult) : TaskEngine :=
  { e with
    completed_tasks := hinsert e.completed_tasks result.task_id result
    processing_tasks := hremove e.processing_tasks result.task_id }

/-- `TaskEngine::get_task_status` (tasks.rs:93): membership is checked in the
order pending, processing, completed. -/
def get_task_status (e : TaskEngine) (task_id : String) : TaskStatus :=
  if hcontains e.pending_tasks task_id then .Pending
  else if hcontains e.processing_tasks task_id then .Processing
  else if hcontains e.completed_tasks task_id then .Completed
  else .NotFound

/-- `TaskEngine::get_stats` (tasks.rs:126). -/
def get_stats (e : TaskEngine) : TaskStats :=
  { pending_count := e.pending_tasks.length
    processing_count := e.processing_tasks.length
    completed_count := e.completed_tasks.length
    total_tasks := e.pending_tasks.length + e.processing_tasks.length + e.completed_tasks.length }

end TaskEngine

/-! ## Lock-acquisition and suspension traces

Each core operation's sequence of `RwLock` guard acquisitions/releases and
deliberate `tokio::time::sleep` calls, transcribed from the guard scopes in
the source.  `tokio::sync::RwLock` is not reentrant, so an acquisition of a
container that is already held by the same operation never completes. -/

/-- The per-subsystem shared containers (`Arc<RwLock<...>>` fields). -/
inductive Container where
  | attestations
  | scores
  | dhtEntries
  | dhtPeers
  | contracts
  | pendingTasks
  | processingTasks
  | completedTasks
deriving DecidableEq

/-- Shared (`read`) or exclusive (`write`) guard mode. -/
inductive LockMode where
  | read
  | write
deriving DecidableEq

/-- One step of an operation relevant to the concurrency model. -/
inductive CoreEvent where
  | acquire : Container → LockMode → CoreEvent
  | release : Container → CoreEvent
  | sleepMs : Nat → CoreEvent
deriving DecidableEq

/-- Trace of `DHT::store` (dht.rs:41; guard dropped at end of scope). -/
def storeEvents : List CoreEvent :=
  [.acquire .dhtEntries .write, .release .dhtEntries]

/-- Trace of `ReputationSystem::add_attestation` (reputation.rs:21-31): the
write guard taken at line 22 is still live when `recalculate_score` runs at
line 28, which takes `attestations.read()` at line 44 and `scores.write()` at
line 67. -/
def addAttestationEvents : List CoreEvent :=
  [.acquire .attestations .write,
   .acquire .attestations .read,
   .acquire .scores .write,
   .release .scores,
   .release .attestations,
   .release .attestations]

/-- Trace of `ReputationSystem::remove_attestation` (reputation.rs:74-85):
same shape as `add_attestation` — the line-75 write guard is live during the
line-82 call to `recalculate_score`. -/
def removeAttestationEvents : List CoreEvent :=
  [.acquire .attestations .write,
   .acquire .attestations .read,
   .acquire .scores .write,
   .release .scores,
   .release .attestations,
   .release .attestations]

/-- Trace of `EscrowManager::add_signature` (escrow.rs:47). -/
def addSignatureEvents : List CoreEvent :=
  [.acquire .contracts .write, .release .contracts]

/-- Trace of `TaskEngine::submit_task` (tasks.rs:24). -/
def submitTaskEvents : List CoreEvent :=
  [.acquire .pendingTasks .write, .release .pendingTasks]

/-- Trace of `TaskEngine::accept_task` (tasks.rs:31-34), found branch. -/
def acceptTaskEvents : List CoreEvent :=
  [.acquire .pendingTasks .write,
   .acquire .processingTasks .write,
   .release .processingTasks,
   .release .pendingTasks]

/-- Trace of `TaskEngine::complete_task` (tasks.rs:43-44). -/
def completeTaskEvents : List CoreEvent :=
  [.acquire .completedTasks .write,
   .acquire .processingTasks .write,
   .release .processingTasks,
   .release .completedTasks]

/-- Trace of `TaskEngine::process_task` (tasks.rs:53-68): no lock is touched,
but the operation deliberately sleeps 100 ms (tasks.rs:55). -/
def processTaskEvents : List CoreEvent :=
  [.sleepMs 100]

/-- Does the trace try to acquire container `c` while `c` is already held
(in any mode)?  `depth` counts the guards on `c` currently held. -/
def acquiresWhileHeld (c : Container) : List CoreEvent → Nat → Bool
  | [], _ => false
  | .acquire c' _ :: rest, depth =>
      if c' = c then decide (0 < depth) || acquiresWhileHeld c rest (depth + 1)
      else acquiresWhileHeld c rest depth
  | .release c' :: rest, depth =>
      if c' = c then acquiresWhileHeld c rest (depth - 1)
      else acquiresWhileHeld c rest depth
  | .sleepMs _ :: rest, depth => acquiresWhileHeld c rest depth

/-- Does the trace contain a deliberate sleep? -/
def hasSleep (tr : List CoreEvent) : Bool :=
  tr.any fun ev =>
    match ev with
    | .sleepMs _ => true
    | _ => false

/-! ## Peer-cache operation sequences (for the bounded-cache invariant) -/

/-- One peer-cache operation. -/
inductive PeerOp where
  | add : String → PeerOp
  | remove : String → PeerOp
deriving DecidableEq

/-- Run a sequence of `add_peer`/`remove_peer` calls. -/
def applyPeerOps (d : DHT) : List PeerOp → DHT
  | [] => d
  | .add p :: rest => applyPeerOps (d.add_peer p) rest
  | .remove p :: rest => applyPeerOps (d.remove_peer p) rest

/-! ## Concrete fixtures used by the witness theorems -/

/-- Twenty distinct peer names used by the C7 witness. -/
def exPeerNames : List String :=
  (List.range 20).map fun i => "p" ++ toString i

/-- A node whose peer cache has been filled with 20 distinct peers. -/
def exFullDHT : DHT :=
  applyPeerOps (DHT.new "node") (exPeerNames.map PeerOp.add)

/-- An escrow manager holding the single contract `e1` (for witnesses). -/
def exEscrowManager : EscrowManager :=
  EscrowManager.new.create_escrow "e1" 5 "buyer" "seller" ["arb1", "arb2"] 100

/-- The contract stored under `e1` in `exEscrowManager`. -/
def exContract : EscrowContract :=
  { id := "e1"
    buyer_did := "buyer"
    seller_did := "seller"
    arbiters := ["arb1", "arb2"]
    amount := 100
    state := .Created
    multisig_address := "multisig_e1"
    signatures := []
    created_at := 5 }

/-- Manager state after `s1` signs contract `e1`. -/
def emW1 : EscrowManager := (exEscrowManager.add_signature "e1" "s1" [1]).2

/-- Manager state after `s1` and then `s2` sign contract `e1`. -/
def emW2 : EscrowManager := (emW1.add_signature "e1" "s2" [2]).2

/-- Manager state after `s1`, `s2` and then `s3` sign contract `e1`. -/
def emW3 : EscrowManager := (emW2.add_signature "e1" "s3" [3]).2

/-- Contract `e1` after the first signature. -/
def cW1 : EscrowContract := { exContract with signatures := [("s1", [1])] }

/-- Contract `e1` after the second signature (threshold reached). -/
def cW2 : EscrowContract :=
  { exContract with signatures := [("s1", [1]), ("s2", [2])], state := .Funded }

/-- A concrete task used by witnesses. -/
def exTask : Task :=
  { id := "t1"
    escrow_id := ""
    service_id := "svc"
    payload := [1, 2]
    requirements := { cpu_cores := 1, memory_mb := 512, timeout_seconds := 60 }
    created_at := 0 }

/-- Engine in which `t1` has been submitted, accepted and completed. -/
def exEngineDone : TaskEngine :=
  ((TaskEngine.new.submit_task exTask).accept_task "t1" "P1").2.complete_task
    { task_id := "t1", processor_did := "proc", result := [7], proof := [8], completed_at := 9 }

/-- Engine in which `t1` has been submitted and accepted but not completed. -/
def exEngineProc : TaskEngine :=
  ((TaskEngine.new.submit_task exTask).accept_task "t1" "P1").2

/-- Attestation about `tgt2` used by the C5 witness. -/
def bEx : ReputationAttestation :=
  { attester_did := "att2"
    target_did := "tgt2"
    score := 1 / 2
    interaction_type := "svc"
    timestamp := 10
    signature := [] }

/-- Fresh age-0 attestation about `tgt1` used by the C5 witness. -/
def aEx : ReputationAttestation :=
  { attester_did := "att1"
    target_did := "tgt1"
    score := 3 / 4
    interaction_type := "svc"
    timestamp := 100
    signature := [5] }

/-- Ledger that already holds `bEx` for `tgt2` and nothing for `tgt1`. -/
def rEx : ReputationSystem :=
  ReputationSystem.new.add_attestation 20 bEx

/-- A concrete service record with name `Alpha Compute`. -/
def exService : ServiceMetadata :=
  { id := "svc9"
    provider_did := "prov"
    name := "Alpha Compute"
    description := "fast GPU"
    endpoint := "tcp://x"
    price := 5
    reputation_score := 0
    last_updated := 0 }

/-- An attestation stored (and later expired) in the registry. -/
def exExpAtt : ReputationAttestation :=
  { attester_did := "attX"
    target_did := "tgtX"
    score := 1
    interaction_type := "svc"
    timestamp := 0
    signature := [] }

/-- Registry holding one service entry (TTL 3600) and one attestation entry
(TTL 86400), both stored at time 0; at time 100000 both have expired. -/
def exExpiredDHT : DHT :=
  ((DHT.new "n").announce_service 0 exService).store_reputation_attestation 0 exExpAtt

/-! ## Generic helper lemmas -/

theorem hget_hinsert_self {β : Type} (m : HMap β) (k : String) (v : β) :
    hget (hinsert m k v) k = some v := by
  induction m with
  | nil => simp [hinsert, hget]
  | cons p rest ih =>
      obtain ⟨k', v'⟩ := p
      by_cases h : k' = k
      · simp [hinsert, h, hget]
      · simp [hinsert, h, hget, ih]

theorem hget_hinsert_ne {β : Type} (m : HMap β) (k q : String) (v : β)
    (h : q ≠ k) : hget (hinsert m k v) q = hget m q := by
  have h' : k ≠ q := Ne.symm h
  induction m with
  | nil => simp [hinsert, hget, h']
  | cons p rest ih =>
      obtain ⟨k', v'⟩ := p
      by_cases hk : k' = k
      · subst hk
        simp [hinsert, hget, h']
      · simp [hinsert, hk, hget, ih]

theorem length_hinsert_of_some {β : Type} (m : HMap β) (k : String) (v w : β)
    (h : hget m k = some w) : (hinsert m k v).length = m.length := by
  induction m with
  | nil => simp [hget] at h
  | cons p rest ih =>
      obtain ⟨k', v'⟩ := p
      by_cases hk : k' = k
      · simp [hinsert, hk]
      · simp [hget, hk] at h
        simp [hinsert, hk, ih h]

theorem length_hinsert_of_none {β : Type} (m : HMap β) (k : String) (v : β)
    (h : hget m k = none) : (hinsert m k v).length = m.length + 1 := by
  induction m with
  | nil => simp [hinsert]
  | cons p rest ih =>
      obtain ⟨k', v'⟩ := p
      by_cases hk : k' = k
      · simp [hget, hk] at h
      · simp [hget, hk] at h
        simp [hinsert, hk, ih h]

theorem hget_hremove_self {β : Type} (m : HMap β) (k : String) :
    hget (hremove m k) k = none := by
  induction m with
  | nil => simp [hremove, hget]
  | cons p rest ih =>
      obtain ⟨k', v'⟩ := p
      by_cases hk : k' = k
      · simp [hremove, hk, ih]
      · simp [hremove, hk, hget, ih]

theorem hget_hremove_ne {β : Type} (m : HMap β) (k q : String)
    (h : q ≠ k) : hget (hremove m k) q = hget m q := by
  have h' : k ≠ q := Ne.symm h
  induction m with
  | nil => simp [hremove]
  | cons p rest ih =>
      obtain ⟨k', v'⟩ := p
      by_cases hk : k' = k
      · subst hk
        simp [hremove, hget, h', ih]
      · simp [hremove, hk, hget, ih]

theorem mem_hinsert_self {β : Type} (m : HMap β) (k : String) (v : β) :
    (k, v) ∈ hinsert m k v := by
  induction m with
  | nil => simp [hinsert]
  | cons p rest ih =>
      obtain ⟨k', v'⟩ := p
      by_cases hk : k' = k
      · simp [hinsert, hk]
      · simp [hinsert, hk]
        right
        exact ih

theorem isPrefixCL_append (l r : List Char) : isPrefixCL l (l ++ r) = true := by
  induction l with
  | nil => simp [isPrefixCL]
  | cons a as ih => simp [isPrefixCL, ih]

theorem startsWithStr_append (pre rest : String) :
    startsWithStr (pre ++ rest) pre = true := by
  have hd : (pre ++ rest).data = pre.data ++ rest.data := by
    cases pre
    cases rest
    rfl
  unfold startsWithStr
  rw [hd]
  exact isPrefixCL_append _ _

theorem hget_none_of_hcontains_false {β : Type} (m : HMap β) (k : String)
    (h : hcontains m k = false) : hget m k = none := by
  unfold hcontains at h
  cases hh : hget m k with
  | none => rfl
  | some v => rw [hh] at h; simp at h

/-! ## Claim theorems -/

/-- C6: for every entry written by `store`, `get` returns the stored value
iff `now < storedAt + ttl`, and exactly at expiry (`now = storedAt + ttl`)
it returns absent. -/
theorem c6_get_ttl_boundary (d : DHT) (t0 ttl now : Nat) (key : String) (value : DHTValue) :
    ((d.store t0 key value ttl).get now key = some value ↔ now < t0 + ttl) ∧
    (d.store t0 key value ttl).get (t0 + ttl) key = none := by
  constructor
  · unfold DHT.store DHT.get
    simp only [hget_hinsert_self]
    by_cases h : now < t0 + ttl <;> simp [h]
  · unfold DHT.store DHT.get
    simp [hget_hinsert_self]

theorem c6_get_ttl_boundary_witness :
    (((DHT.new "n").store 0 "k" (.service exService) 10).get 5 "k" = some (.service exService)) ∧
    (((DHT.new "n").store 0 "k" (.service exService) 10).get (0 + 10) "k" = none) := by
  have H := c6_get_ttl_boundary (DHT.new "n") 0 10 5 "k" (.service exService)
  exact ⟨H.1.mpr (by decide), H.2⟩

/-- C2: the claimed lock discipline fails on the code: `add_attestation` and
`remove_attestation` both re-acquire the `attestations` container (via the
synchronous `recalculate_score`) while already holding it exclusively, and
`process_task` contains a deliberate sleep even though it is not the
orchestrator's polling loop.  The remaining listed mutating operations are
sleep-free and do not re-acquire their own container. -/
theorem c2_lock_discipline_violated :
    acquiresWhileHeld .attestations addAttestationEvents 0 = true ∧
    acquiresWhileHeld .attestations removeAttestationEvents 0 = true ∧
    hasSleep processTaskEvents = true ∧
    hasSleep storeEvents = false ∧
    hasSleep addAttestationEvents = false ∧
    hasSleep addSignatureEvents = false ∧
    hasSleep submitTaskEvents = false ∧
    hasSleep acceptTaskEvents = false ∧
    hasSleep completeTaskEvents = false ∧
    acquiresWhileHeld .dhtEntries storeEvents 0 = false ∧
    acquiresWhileHeld .contracts addSignatureEvents 0 = false ∧
    acquiresWhileHeld .pendingTasks submitTaskEvents 0 = false ∧
    acquiresWhileHeld .pendingTasks acceptTaskEvents 0 = false ∧
    acquiresWhileHeld .processingTasks acceptTaskEvents 0 = false ∧
    acquiresWhileHeld .completedTasks completeTaskEvents 0 = false ∧
    acquiresWhileHeld .processingTasks completeTaskEvents 0 = false := by
  decide

theorem add_peer_preserves_bound (d : DHT) (p : String)
    (hk : d.k_bucket_size = 20) (h : d.peers.length ≤ 20) :
    (d.add_peer p).k_bucket_size = 20 ∧ (d.add_peer p).peers.length ≤ 20 := by
  unfold DHT.add_peer
  by_cases hp : p ∈ d.peers
  · simp [hp, hk, h]
  · simp only [hp, if_false, ite_false]
    by_cases hl : d.k_bucket_size < (d.peers ++ [p]).length
    · simp only [hl, if_true, ite_true]
      refine ⟨hk, ?_⟩
      simp only [List.length_drop, List.length_append, List.length_singleton]
      omega
    · simp only [hl, if_false, ite_false]
      refine ⟨hk, ?_⟩
      simp only [List.length_append, List.length_singleton]
      rw [hk] at hl
      simp only [List.length_append, List.length_singleton] at hl
      omega

theorem remove_peer_preserves_bound (d : DHT) (p : String)
    (hk : d.k_bucket_size = 20) (h : d.peers.length ≤ 20) :
    (d.remove_peer p).k_bucket_size = 20 ∧ (d.remove_peer p).peers.length ≤ 20 := by
  unfold DHT.remove_peer
  exact ⟨hk, le_trans (List.length_filter_le _ _) h⟩

theorem applyPeerOps_bound (ops : List PeerOp) :
    ∀ d : DHT, d.k_bucket_size = 20 → d.peers.length ≤ 20 →
      (applyPeerOps d ops).peers.length ≤ 20 := by
  induction ops with
  | nil => intro d _ h; simpa [applyPeerOps] using h
  | cons op rest ih =>
      intro d hk h
      cases op with
      | add p =>
          have hp := add_peer_preserves_bound d p hk h
          exact ih _ hp.1 hp.2
      | remove p =>
          have hp := remove_peer_preserves_bound d p hk h
          exact ih _ hp.1 hp.2

/-- C7: the peer cache never exceeds 20 peers under any sequence of
`add_peer`/`remove_peer` calls, and when a new peer is added to a full cache
the first-inserted (index-0) peer is the one evicted. -/
theorem c7_peer_cache_fifo (d : DHT) (ops : List PeerOp) (p : String)
    (hk : d.k_bucket_size = 20) (hlen : d.peers.length ≤ 20) :
    (applyPeerOps d ops).peers.length ≤ 20 ∧
    (d.peers.length = 20 → p ∉ d.peers →
      (d.add_peer p).peers = d.peers.tail ++ [p]) := by
  refine ⟨applyPeerOps_bound ops d hk hlen, fun hfull hp => ?_⟩
  unfold DHT.add_peer
  have hl : d.k_bucket_size < (d.peers ++ [p]).length := by
    simp [hk, hfull]
  simp only [hp, if_false, ite_false, hl, if_true, ite_true]
  cases hd : d.peers with
  | nil => rw [hd] at hfull; simp at hfull
  | cons a rest => simp

theorem c7_peer_cache_fifo_witness :
    (applyPeerOps exFullDHT [PeerOp.add "x"]).peers.length ≤ 20 ∧
    (exFullDHT.add_peer "x").peers = exFullDHT.peers.tail ++ ["x"] := by
  have H := c7_peer_cache_fifo exFullDHT [PeerOp.add "x"] "x" (by decide) (by decide)
  exact ⟨H.1, H.2 (by decide) (by decide)⟩

/-- C8: for an id absent from the contracts map, `add_signature` and
`update_state` return the identified `Escrow contract not found` error and
leave the manager unchanged; for a present id they return success. -/
theorem c8_escrow_not_found (m : EscrowManager) (eid signer : String)
    (sig : List Nat) (ns : EscrowState) :
    (hget m.contracts eid = none →
       (m.add_signature eid signer sig).1 = .error ("Escrow contract not found: " ++ eid) ∧
       (m.add_signature eid signer sig).2 = m ∧
       (m.update_state eid ns).1 = .error ("Escrow contract not found: " ++ eid) ∧
       (m.update_state eid ns).2 = m) ∧
    (∀ c, hget m.contracts eid = some c →
       (m.add_signature eid signer sig).1 = .ok () ∧
       (m.update_state eid ns).1 = .ok ()) := by
  constructor
  · intro h
    simp [EscrowManager.add_signature, EscrowManager.update_state, h]
  · intro c h
    simp [EscrowManager.add_signature, EscrowManager.update_state, h]

theorem c8_escrow_not_found_witness :
    ((exEscrowManager.add_signature "missing" "s1" []).1 =
        .error ("Escrow contract not found: " ++ "missing") ∧
      (exEscrowManager.add_signature "missing" "s1" []).2 = exEscrowManager ∧
      (exEscrowManager.update_state "missing" .Funded).1 =
        .error ("Escrow contract not found: " ++ "missing") ∧
      (exEscrowManager.update_state "missing" .Funded).2 = exEscrowManager) ∧
    ((exEscrowManager.add_signature "e1" "s1" []).1 = .ok () ∧
      (exEscrowManager.update_state "e1" .Funded).1 = .ok ()) := by
  have H := c8_escrow_not_found exEscrowManager "missing" "s1" [] .Funded
  have H2 := c8_escrow_not_found exEscrowManager "e1" "s1" [] .Funded
  exact ⟨H.1 (by decide), H2.2 exContract (by decide)⟩

theorem signContract_signatures (th : Nat) (c : EscrowContract) (s : String) (v : List Nat) :
    (EscrowManager.signContract th c s v).signatures = hinsert c.signatures s v := by
  unfold EscrowManager.signContract
  by_cases h : th ≤ (hinsert c.signatures s v).length
  · cases c.state <;> simp [h]
  · simp [h]

theorem signContract_state_below (th : Nat) (c : EscrowContract) (s : String) (v : List Nat)
    (h : (hinsert c.signatures s v).length < th) :
    (EscrowManager.signContract th c s v).state = c.state := by
  unfold EscrowManager.signContract
  have h' : ¬ th ≤ (hinsert c.signatures s v).length := by omega
  simp [h']

theorem signContract_state_created (th : Nat) (c : EscrowContract) (s : String) (v : List Nat)
    (h : th ≤ (hinsert c.signatures s v).length) (hc : c.state = .Created) :
    (EscrowManager.signContract th c s v).state = .Funded := by
  unfold EscrowManager.signContract
  simp [h, hc]

theorem signContract_state_inprogress (th : Nat) (c : EscrowContract) (s : String) (v : List Nat)
    (h : th ≤ (hinsert c.signatures s v).length) (hc : c.state = .InProgress) :
    (EscrowManager.signContract th c s v).state = .Completed := by
  unfold EscrowManager.signContract
  simp [h, hc]

theorem signContract_state_other (th : Nat) (c : EscrowContract) (s : String) (v : List Nat)
    (hnc : c.state ≠ .Created) (hnp : c.state ≠ .InProgress) :
    (EscrowManager.signContract th c s v).state = c.state := by
  unfold EscrowManager.signContract
  by_cases h : th ≤ (hinsert c.signatures s v).length
  · cases hs : c.state with
    | Created => exact absurd hs hnc
    | InProgress => exact absurd hs hnp
    | Funded => simp [h, hs]
    | Completed => simp [h, hs]
    | Disputed => simp [h, hs]
    | Refunded => simp [h, hs]
  · simp [h]

/-- C3: `add_signature` on a threshold-2 contract records/overwrites the
signer's entry (re-signing does not change the signer count, a new signer
adds one); below 2 signers the state is unchanged; reaching 2 while
`Created` yields `Funded`, reaching it while `InProgress` yields
`Completed`; in every other state `add_signature` changes nothing. -/
theorem c3_add_signature_threshold (m : EscrowManager) (eid signer : String)
    (sig : List Nat) (c : EscrowContract)
    (hth : m.threshold = 2) (hc : hget m.contracts eid = some c) :
    ∃ c', hget (m.add_signature eid signer sig).2.contracts eid = some c' ∧
      (m.add_signature eid signer sig).1 = .ok () ∧
      c'.signatures = hinsert c.signatures signer sig ∧
      hget c'.signatures signer = some sig ∧
      (∀ w, hget c.signatures signer = some w →
        c'.signatures.length = c.signatures.length) ∧
      (hget c.signatures signer = none →
        c'.signatures.length = c.signatures.length + 1) ∧
      (c'.signatures.length < 2 → c'.state = c.state) ∧
      (2 ≤ c'.signatures.length → c.state = .Created → c'.state = .Funded) ∧
      (2 ≤ c'.signatures.length → c.state = .InProgress → c'.state = .Completed) ∧
      (c.state ≠ .Created → c.state ≠ .InProgress → c'.state = c.state) := by
  unfold EscrowManager.add_signature
  rw [hc]
  refine ⟨EscrowManager.signContract m.threshold c signer sig, hget_hinsert_self _ _ _, rfl, ?_, ?_, ?_, ?_, ?_, ?_, ?_, ?_⟩
  · exact signContract_signatures m.threshold c signer sig
  · rw [signContract_signatures]
    exact hget_hinsert_self _ _ _
  · intro w hw
    rw [signContract_signatures]
    exact length_hinsert_of_some _ _ _ _ hw
  · intro hw
    rw [signContract_signatures]
    exact length_hinsert_of_none _ _ _ hw
  · intro hlt
    rw [signContract_signatures] at hlt
    rw [← hth] at hlt
    exact signContract_state_below m.threshold c signer sig (by omega)
  · intro hge hcr
    rw [signContract_signatures, ← hth] at hge
    exact signContract_state_created m.threshold c signer sig hge hcr
  · intro hge hip
    rw [signContract_signatures, ← hth] at hge
    exact signContract_state_inprogress m.threshold c signer sig hge hip
  · intro hnc hnp
    exact signContract_state_other m.threshold c signer sig hnc hnp

theorem c3_add_signature_threshold_witness :
    (∃ c', hget emW1.contracts "e1" = some c' ∧
       c'.state = .Created ∧ c'.signatures.length = 1) ∧
    (∃ c', hget emW2.contracts "e1" = some c' ∧
       c'.state = .Funded ∧ c'.signatures.length = 2) ∧
    (∃ c', hget emW3.contracts "e1" = some c' ∧
       c'.state = .Funded ∧ c'.signatures.length = 3) := by
  refine ⟨?_, ?_, ?_⟩
  · obtain ⟨c', h1, _, _, _, _, h6, h7, _, _, _⟩ :=
      c3_add_signature_threshold exEscrowManager "e1" "s1" [1] exContract (by decide) (by decide)
    have hlen : c'.signatures.length = 1 := by
      rw [h6 (by decide)]
      decide
    refine ⟨c', h1, ?_, hlen⟩
    have := h7 (by omega)
    rw [this]
    decide
  · obtain ⟨c', h1, _, _, _, _, h6, _, h8, _, _⟩ :=
      c3_add_signature_threshold emW1 "e1" "s2" [2] cW1 (by decide) (by decide)
    have hlen : c'.signatures.length = 2 := by
      rw [h6 (by decide)]
      decide
    exact ⟨c', h1, h8 (by omega) (by decide), hlen⟩
  · obtain ⟨c', h1, _, _, _, _, h6, _, _, _, h10⟩ :=
      c3_add_signature_threshold emW2 "e1" "s3" [3] cW2 (by decide) (by decide)
    have hlen : c'.signatures.length = 3 := by
      rw [h6 (by decide)]
      decide
    have hst : c'.state = cW2.state := h10 (by decide) (by decide)
    exact ⟨c', h1, by rw [hst]; decide, hlen⟩

/-- C4: `accept_task` removes a pending task and binds it to the processor,
returning it, iff the id was pending, and otherwise returns `none` changing
nothing; consequently a submitted task is `Pending`, a first accept makes it
`Processing`, a second accept returns `none`, completion makes it
`Completed`, and an id never submitted is `NotFound`. -/
theorem c4_accept_at_most_once (e : TaskEngine) (tid proc p1 p2 procd : String)
    (t : Task) (res prf : List Nat) (ca : Nat) :
    (∀ u, hget e.pending_tasks tid = some u →
       e.accept_task tid proc =
         (some u,
           { pending_tasks := hremove e.pending_tasks tid
             completed_tasks := e.completed_tasks
             processing_tasks := hinsert e.processing_tasks tid proc })) ∧
    (hget e.pending_tasks tid = none → e.accept_task tid proc = (none, e)) ∧
    ((TaskEngine.new.submit_task t).get_task_status t.id = .Pending ∧
     ((TaskEngine.new.submit_task t).accept_task t.id p1).1 = some t ∧
     ((TaskEngine.new.submit_task t).accept_task t.id p1).2.get_task_status t.id = .Processing ∧
     (((TaskEngine.new.submit_task t).accept_task t.id p1).2.accept_task t.id p2 =
       (none, ((TaskEngine.new.submit_task t).accept_task t.id p1).2)) ∧
     ((((TaskEngine.new.submit_task t).accept_task t.id p1).2.complete_task
         { task_id := t.id, processor_did := procd, result := res, proof := prf, completed_at := ca
         }).get_task_status t.id = .Completed) ∧
     (∀ q, q ≠ t.id →
       (((TaskEngine.new.submit_task t).accept_task t.id p1).2.complete_task
         { task_id := t.id, processor_did := procd, result := res, proof := prf, completed_at := ca
         }).get_task_status q = .NotFound)) := by
  refine ⟨?_, ?_, ?_⟩
  · intro u hu
    unfold TaskEngine.accept_task
    rw [hu]
  · intro hn
    unfold TaskEngine.accept_task
    rw [hn]
  · have hpend : hget (TaskEngine.new.submit_task t).pending_tasks t.id = some t := by
      simp [TaskEngine.new, TaskEngine.submit_task, hget_hinsert_self]
    refine ⟨?_, ?_, ?_, ?_, ?_, ?_⟩
    · simp [TaskEngine.get_task_status, hcontains, hpend]
    · unfold TaskEngine.accept_task
      rw [hpend]
    · unfold TaskEngine.accept_task
      rw [hpend]
      simp [TaskEngine.get_task_status, TaskEngine.new, TaskEngine.submit_task, hcontains,
        hget, hinsert, hremove, hget_hinsert_self]
    · unfold TaskEngine.accept_task
      rw [hpend]
      simp [TaskEngine.new, TaskEngine.submit_task, hget, hinsert, hremove]
    · unfold TaskEngine.accept_task
      rw [hpend]
      simp [TaskEngine.get_task_status, TaskEngine.complete_task, TaskEngine.new,
        TaskEngine.submit_task, hcontains, hget, hinsert, hremove, hget_hinsert_self]
    · intro q hq
      unfold TaskEngine.accept_task
      rw [hpend]
      have hq' : ¬ t.id = q := fun hh => hq hh.symm
      simp [TaskEngine.get_task_status, TaskEngine.complete_task, TaskEngine.new,
        TaskEngine.submit_task, hcontains, hget, hinsert, hremove, hq']

theorem c4_accept_at_most_once_witness :
    ((TaskEngine.new.submit_task exTask).accept_task "t1" "P1" =
      (some exTask,
        { pending_tasks := hremove (TaskEngine.new.submit_task exTask).pending_tasks "t1"
          completed_tasks := (TaskEngine.new.submit_task exTask).completed_tasks
          processing_tasks :=
            hinsert (TaskEngine.new.submit_task exTask).processing_tasks "t1" "P1" })) ∧
    (TaskEngine.new.accept_task "t1" "P1" = (none, TaskEngine.new)) ∧
    ((TaskEngine.new.submit_task exTask).get_task_status exTask.id = .Pending) ∧
    (((TaskEngine.new.submit_task exTask).accept_task exTask.id "P1").1 = some exTask) ∧
    (((TaskEngine.new.submit_task exTask).accept_task exTask.id "P1").2.get_task_status exTask.id
        = .Processing) ∧
    (((TaskEngine.new.submit_task exTask).accept_task exTask.id "P1").2.accept_task exTask.id "P2"
        = (none, ((TaskEngine.new.submit_task exTask).accept_task exTask.id "P1").2)) ∧
    ((((TaskEngine.new.submit_task exTask).accept_task exTask.id "P1").2.complete_task
        { task_id := exTask.id, processor_did := "proc", result := [7], proof := [8],
          completed_at := 9 }).get_task_status exTask.id = .Completed) ∧
    ((((TaskEngine.new.submit_task exTask).accept_task exTask.id "P1").2.complete_task
        { task_id := exTask.id, processor_did := "proc", result := [7], proof := [8],
          completed_at := 9 }).get_task_status "zz" = .NotFound) := by
  have H := c4_accept_at_most_once (TaskEngine.new.submit_task exTask)
    "t1" "P1" "P1" "P2" "proc" exTask [7] [8] 9
  have H0 := c4_accept_at_most_once TaskEngine.new "t1" "P1" "P1" "P2" "proc" exTask [7] [8] 9
  exact ⟨H.1 exTask (by decide), H0.2.1 (by decide), H.2.2.1, H.2.2.2.1, H.2.2.2.2.1,
    H.2.2.2.2.2.1, H.2.2.2.2.2.2.1, H.2.2.2.2.2.2.2 "zz" (by decide)⟩

/-- C10: `submit_task` inserts into the pending map unconditionally, leaving
the processing and completed maps untouched; afterwards the status is
`Pending` (pending is checked first), an id already in another lifecycle map
is then a member of two maps at once, and the stats total counts it once per
map it occupies. -/
theorem c10_submit_unconditional (e : TaskEngine) (t : Task) :
    ((e.submit_task t).processing_tasks = e.processing_tasks) ∧
    ((e.submit_task t).completed_tasks = e.completed_tasks) ∧
    (hget (e.submit_task t).pending_tasks t.id = some t) ∧
    ((e.submit_task t).get_task_status t.id = .Pending) ∧
    (hcontains e.completed_tasks t.id = true →
       hcontains (e.submit_task t).pending_tasks t.id = true ∧
       hcontains (e.submit_task t).completed_tasks t.id = true) ∧
    (hcontains e.processing_tasks t.id = true →
       hcontains (e.submit_task t).pending_tasks t.id = true ∧
       hcontains (e.submit_task t).processing_tasks t.id = true) ∧
    (hcontains e.pending_tasks t.id = false →
       (e.submit_task t).get_stats.total_tasks = e.get_stats.total_tasks + 1) := by
  refine ⟨rfl, rfl, hget_hinsert_self _ _ _, ?_, ?_, ?_, ?_⟩
  · simp [TaskEngine.get_task_status, TaskEngine.submit_task, hcontains, hget_hinsert_self]
  · intro h
    refine ⟨?_, h⟩
    simp [TaskEngine.submit_task, hcontains, hget_hinsert_self]
  · intro h
    refine ⟨?_, h⟩
    simp [TaskEngine.submit_task, hcontains, hget_hinsert_self]
  · intro h
    have hn := hget_none_of_hcontains_false _ _ h
    simp only [TaskEngine.get_stats, TaskEngine.submit_task,
      length_hinsert_of_none _ _ _ hn]
    omega

theorem c10_submit_unconditional_witness :
    ((exEngineDone.submit_task exTask).get_task_status exTask.id = .Pending) ∧
    (hcontains (exEngineDone.submit_task exTask).pending_tasks exTask.id = true ∧
      hcontains (exEngineDone.submit_task exTask).completed_tasks exTask.id = true) ∧
    ((exEngineDone.submit_task exTask).get_stats.total_tasks
        = exEngineDone.get_stats.total_tasks + 1) ∧
    (hcontains (exEngineProc.submit_task exTask).pending_tasks exTask.id = true ∧
      hcontains (exEngineProc.submit_task exTask).processing_tasks exTask.id = true) := by
  have H1 := c10_submit_unconditional exEngineDone exTask
  have H2 := c10_submit_unconditional exEngineProc exTask
  exact ⟨H1.2.2.2.1, H1.2.2.2.2.1 (by decide), H1.2.2.2.2.2.2 (by decide),
    H2.2.2.2.2.2.1 (by decide)⟩

/-- C5: whenever an identity's attestation list changes (append via
`add_attestation`, exact-match removal via `remove_attestation`), its stored
score is recomputed as the decay-weighted mean `Σ(s·w)/Σ(w)` with
`w = 0.95^(age in whole days)`, or `0` for an empty list; a single
attestation of age 0 yields exactly its score, and removing the only
attestation resets the score to 0. -/
theorem c5_reputation_recompute (r : ReputationSystem) (now ts : Nat)
    (a b : ReputationAttestation) (target attester : String)
    (atts : List ReputationAttestation) :
    ((r.add_attestation now a).get_reputation a.target_did =
       scoreOf now ((hget r.attestations a.target_did).getD [] ++ [a])) ∧
    (hget r.attestations target = some atts →
       (r.remove_attestation now target attester ts).get_reputation target =
         scoreOf now (atts.filter fun x =>
           decide (¬ (x.attester_did = attester ∧ x.timestamp = ts)))) ∧
    (scoreOf now [] = 0) ∧
    (atts ≠ [] →
       scoreOf now atts =
         (atts.map fun x => x.score * decayFactor ((now - x.timestamp) / 86400)).sum /
           (atts.map fun x => decayFactor ((now - x.timestamp) / 86400)).sum) ∧
    (hget r.attestations a.target_did = none → now - a.timestamp < 86400 →
       (r.add_attestation now a).get_reputation a.target_did = a.score) ∧
    (hget r.attestations target = some [b] → b.attester_did = attester →
       b.timestamp = ts →
       (r.remove_attestation now target attester ts).get_reputation target = 0) := by
  refine ⟨?_, ?_, ?_, ?_, ?_, ?_⟩
  · unfold ReputationSystem.add_attestation ReputationSystem.recalculate_score
      ReputationSystem.get_reputation
    simp [hget_hinsert_self]
  · intro h
    unfold ReputationSystem.remove_attestation ReputationSystem.recalculate_score
      ReputationSystem.get_reputation
    rw [h]
    simp [hget_hinsert_self]
  · simp [scoreOf]
  · intro hne
    have hpos : 0 < (atts.map fun x => decayFactor ((now - x.timestamp) / 86400)).sum := by
      apply List.sum_pos
      · intro q hq
        simp only [List.mem_map] at hq
        obtain ⟨x, _, hx⟩ := hq
        rw [← hx]
        unfold decayFactor
        positivity
      · simp [hne]
    simp [scoreOf, hpos]
  · intro h0 hage
    unfold ReputationSystem.add_attestation ReputationSystem.recalculate_score
      ReputationSystem.get_reputation
    simp [h0, hget_hinsert_self, scoreOf, decayFactor, Nat.div_eq_of_lt hage]
  · intro h hatt hts
    unfold ReputationSystem.remove_attestation ReputationSystem.recalculate_score
      ReputationSystem.get_reputation
    rw [h]
    simp [hget_hinsert_self, scoreOf, hatt, hts]

theorem c5_reputation_recompute_witness :
    ((rEx.add_attestation 100 aEx).get_reputation aEx.target_did =
       scoreOf 100 ((hget rEx.attestations aEx.target_did).getD [] ++ [aEx])) ∧
    ((rEx.remove_attestation 100 "tgt2" "att2" 10).get_reputation "tgt2" =
       scoreOf 100 ([bEx].filter fun x =>
         decide (¬ (x.attester_did = "att2" ∧ x.timestamp = 10)))) ∧
    (scoreOf 100 [] = 0) ∧
    (scoreOf 100 [bEx] =
       ([bEx].map fun x => x.score * decayFactor ((100 - x.timestamp) / 86400)).sum /
         ([bEx].map fun x => decayFactor ((100 - x.timestamp) / 86400)).sum) ∧
    ((rEx.add_attestation 100 aEx).get_reputation aEx.target_did = aEx.score) ∧
    ((rEx.remove_attestation 100 "tgt2" "att2" 10).get_reputation "tgt2" = 0) := by
  have H := c5_reputation_recompute rEx 100 10 aEx bEx "tgt2" "att2" [bEx]
  exact ⟨H.1, H.2.1 (by rfl), H.2.2.1, H.2.2.2.1 (by decide),
    H.2.2.2.2.1 (by rfl) (by decide),
    H.2.2.2.2.2 (by rfl) (by decide) (by decide)⟩

/-- C9: a service stored by `announce_service` is found by any query that is
a case-insensitive substring of its name or description (and, from an empty
registry, it is the only result); from an empty registry, a query matching
neither field returns no results. -/
theorem c9_service_roundtrip (d : DHT) (s : ServiceMetadata) (q nid : String) (now : Nat) :
    (serviceMatches q s = true → s ∈ (d.announce_service now s).find_services q) ∧
    (serviceMatches q s = true →
       ((DHT.new nid).announce_service now s).find_services q = [s]) ∧
    (serviceMatches q s = false →
       ((DHT.new nid).announce_service now s).find_services q = []) := by
  have hpre : startsWithStr ("service:" ++ s.id) "service:" = true :=
    startsWithStr_append _ _
  refine ⟨?_, ?_, ?_⟩
  · intro hm
    unfold DHT.announce_service DHT.store DHT.find_services
    rw [List.mem_filterMap]
    refine ⟨("service:" ++ s.id,
      { key := "service:" ++ s.id, value := .service s, timestamp := now, ttl := 3600 }),
      mem_hinsert_self _ _ _, ?_⟩
    simp [hpre, asService, hm]
  · intro hm
    unfold DHT.new DHT.announce_service DHT.store DHT.find_services
    simp [hinsert, hpre, asService, hm]
  · intro hm
    unfold DHT.new DHT.announce_service DHT.store DHT.find_services
    simp [hinsert, hpre, asService, hm]

theorem c9_service_roundtrip_witness :
    (exService ∈ ((DHT.new "m").announce_service 7 exService).find_services "alpha") ∧
    (((DHT.new "n").announce_service 7 exService).find_services "alpha" = [exService]) ∧
    (((DHT.new "n").announce_service 7 exService).find_services "zeta" = []) := by
  have H1 := c9_service_roundtrip (DHT.new "m") exService "alpha" "n" 7
  have H2 := c9_service_roundtrip (DHT.new "m") exService "zeta" "n" 7
  exact ⟨H1.1 (by decide), H1.2.1 (by decide), H2.2.2 (by decide)⟩

/-- C1 (amended): the prefix-scan reads apply no TTL condition at all — a
matching entry is returned by `find_services` / `get_reputation_attestations`
whenever it is physically present, expired or not (the scans read no clock),
whereas `get` on the same key returns absent once `storedAt + ttl ≤ now`. -/
theorem c1_scan_ignores_expiry (d : DHT) (q target k : String) (e : DHTEntry)
    (s : ServiceMetadata) (a : ReputationAttestation) :
    ((k, e) ∈ d.entries → e.value = .service s → startsWithStr k "service:" = true →
       serviceMatches q s = true → s ∈ d.find_services q) ∧
    ((k, e) ∈ d.entries → e.value = .attestation a →
       startsWithStr k ("reputation:" ++ target ++ ":") = true →
       a ∈ d.get_reputation_attestations target) ∧
    (∀ now, hget d.entries k = some e → e.timestamp + e.ttl ≤ now →
       d.get now k = none) := by
  refine ⟨?_, ?_, ?_⟩
  · intro hmem hv hpre hm
    unfold DHT.find_services
    rw [List.mem_filterMap]
    exact ⟨(k, e), hmem, by simp [hpre, hv, asService, hm]⟩
  · intro hmem hv hpre
    unfold DHT.get_reputation_attestations
    rw [List.mem_filterMap]
    exact ⟨(k, e), hmem, by simp [hpre, hv, asAttestation]⟩
  · intro now hk hexp
    unfold DHT.get
    rw [hk]
    have hlt : ¬ now < e.timestamp + e.ttl := by omega
    simp [hlt]

/-- C1 counterexample: at time 100000 both entries are past their TTL, so
`get` reports them absent, yet both prefix scans still return them — the
expired entries are not observably absent from scan results. -/
theorem c1_scan_ignores_expiry_counterexample :
    3600 ≤ (100000 : Nat) ∧ 86400 ≤ (100000 : Nat) ∧
    exExpiredDHT.get 100000 ("service:" ++ exService.id) = none ∧
    exExpiredDHT.get 100000
      ("reputation:" ++ exExpAtt.target_did ++ ":" ++ toString exExpAtt.timestamp) = none ∧
    exService ∈ exExpiredDHT.find_services "alpha" ∧
    exExpAtt ∈ exExpiredDHT.get_reputation_attestations "tgtX" := by
  decide

theorem c1_scan_ignores_expiry_witness :
    (exService ∈ exExpiredDHT.find_services "alpha") ∧
    (exExpAtt ∈ exExpiredDHT.get_reputation_attestations "tgtX") ∧
    (exExpiredDHT.get 100000 ("service:" ++ exService.id) = none) := by
  have H := c1_scan_ignores_expiry exExpiredDHT "alpha" "tgtX"
    ("service:" ++ exService.id)
    { key := "service:" ++ exService.id, value := .service exService,
      timestamp := 0, ttl := 3600 }
    exService exExpAtt
  have HA := c1_scan_ignores_expiry exExpiredDHT "alpha" "tgtX"
    ("reputation:" ++ exExpAtt.target_did ++ ":" ++ toString exExpAtt.timestamp)
    { key := "reputation:" ++ exExpAtt.target_did ++ ":" ++ toString exExpAtt.timestamp,
      value := .attestation exExpAtt, timestamp := 0, ttl := 86400 }
    exService exExpAtt
  exact ⟨H.1 (by decide) (by decide) (by decide) (by decide),
    HA.2.1 (by decide) (by decide) (by decide),
    H.2.2 100000 (by decide) (by decide)⟩

end DuxNet
